import Mathlib

/-!
Verification of the cfengine promise protocol library (Normation/cfengine-promise-rust).

Shallow embedding of the core sources:
  * src/src/attribute.rs  — AttributeType and its has_type predicate
  * src/src/log.rs        — Level, LevelFilter, the log gate and log line format
  * src/src/protocol.rs   — Result and Outcome types, the outcome projections,
                            request and response shapes
  * src/src/lib.rs        — the PromiseType trait
  * src/src/executor.rs   — read_line, write_line, check_attributes and the
                            run_type request loop

Stateful Rust code is embedded as explicit state passing; the three output
channels of the process (the record sink handed to run_type, the process
standard output targeted by the log macros, and the logger sink handed to
run_type) are modelled as a chronological event trace with one event
constructor per channel.  Fallible code returns Except or an explicit
result type; the one panic site of the source, the unwrap at end of input
in read_line, is modelled by an explicit panicked result constructor.
-/

namespace Cf

/-! ## JSON values (serde_json::Value as used by this crate)

The crate manipulates serde_json values only through the accessors
as_bool, as_str, as_i64, as_f64, as_array, as_object.  Numbers are
modelled by the outcome of as_i64 (some integer when the number is an
integer representable in i64, none otherwise); as_f64 succeeds on every
finite JSON number, hence on every num value.
-/

inductive Value where
  | null
  | bool (b : Bool)
  | num (asI64 : Option Int)
  | str (s : String)
  | arr (elems : List Value)
  | obj (fields : List (String × Value))

/-- An attribute map: serde_json::Map with unique string keys, read-only. -/
def AttrMap := List (String × Value)

/-- Map::get — key lookup (keys are unique, so first match is the match). -/
def attrGet (m : AttrMap) (key : String) : Option Value :=
  List.lookup key m

/-! ## AttributeType (src/src/attribute.rs) -/

inductive AttributeType where
  | bool
  | string
  | integer
  | float
  | list
  | data
  | stringEnum (variants : List String)
  | absolutePath
  deriving DecidableEq

/-- Path::new(p).is_absolute() — platform-defined; on Unix this is
"begins with the root", i.e. starts with a slash. -/
def isAbsolutePath (s : String) : Bool :=
  s.startsWith "/"

/-- Embeds AttributeType::has_type (src/src/attribute.rs lines 25 to 42):
bool, string, integer, float, list, data test the accessor of the kind;
absolutePath additionally tests Path::is_absolute; stringEnum tests
membership among the declared variants. -/
def AttributeType.has_type : AttributeType → Value → Bool
  | .bool, v => match v with | .bool _ => true | _ => false
  | .string, v => match v with | .str _ => true | _ => false
  | .integer, v => match v with | .num i => i.isSome | _ => false
  | .float, v => match v with | .num _ => true | _ => false
  | .list, v => match v with | .arr _ => true | _ => false
  | .data, v => match v with | .obj _ => true | _ => false
  | .absolutePath, v => match v with | .str s => isAbsolutePath s | _ => false
  | .stringEnum variants, v => match v with | .str s => variants.contains s | _ => false

/-! ## Log levels and the log gate (src/src/log.rs) -/

/-- Level (log.rs lines 7 to 17), discriminants 0 (critical, most severe)
through 6 (debug, least severe). -/
inductive Level where
  | critical
  | error
  | warning
  | notice
  | info
  | verbose
  | debug
  deriving DecidableEq

/-- The usize discriminant of a Level, used by all its comparison impls. -/
def Level.toNat : Level → Nat
  | .critical => 0
  | .error => 1
  | .warning => 2
  | .notice => 3
  | .info => 4
  | .verbose => 5
  | .debug => 6

/-- The Display impl of Level (log.rs lines 19 to 35): lowercase name. -/
def Level.render : Level → String
  | .critical => "critical"
  | .error => "error"
  | .warning => "warning"
  | .notice => "notice"
  | .info => "info"
  | .verbose => "verbose"
  | .debug => "debug"

/-- LevelFilter (log.rs lines 37 to 48): same seven variants, repr(usize),
deserialized from the lowercase names carried in request log_level fields. -/
inductive LevelFilter where
  | critical
  | error
  | warning
  | notice
  | info
  | verbose
  | debug
  deriving DecidableEq

def LevelFilter.toNat : LevelFilter → Nat
  | .critical => 0
  | .error => 1
  | .warning => 2
  | .notice => 3
  | .info => 4
  | .verbose => 5
  | .debug => 6

/-! ## The event trace

run_type interacts with three byte channels plus the promise hooks.
One trace event per interaction, in chronological order:

  * record r     — a record written with write_line to the output sink W
                   handed to run_type (stdout under Executor::run);
  * logLine s    — a line printed by the log macro (log.rs lines 157 to 168)
                   with std::println!, hence to the process standard output,
                   whatever W and L are;
  * loggerLine s — a write to the logger sink L handed to run_type (stderr
                   under Executor::run).  The source threads L into
                   write_json as the parameter _error and never writes to
                   it, so no definition below ever constructs this event;
  * dbgDump      — the dbg! at executor.rs line 168, which dumps the raw
                   request line to the process standard error;
  * hook h       — an invocation of a promise lifecycle hook.
-/

inductive HookCall where
  | initH
  | validateH (promiser : String)
  | checkH (promiser : String)
  | applyH (promiser : String)
  | terminateH

/-! Wire outcome enums (src/src/protocol.rs). -/

inductive ValidateOutcome where
  | valid
  | invalid
  | error
  deriving DecidableEq

inductive EvaluateOutcome where
  | kept
  | repaired
  | notKept
  | error
  deriving DecidableEq, BEq

inductive ProtocolOutcome where
  | success
  | failure
  | error
  deriving DecidableEq

/-- The records the executor writes: the identity header line plus the
three response shapes of protocol.rs (each response struct carries its
constant operation tag, the echoed promiser and attributes where the
struct has them, and the result field). -/
inductive Rec where
  | headerRec (name version : String)
  | validateResp (promiser : String) (attributes : AttrMap) (result : ValidateOutcome)
  | evaluateResp (promiser : String) (attributes : AttrMap) (result : EvaluateOutcome)
  | terminateResp (result : ProtocolOutcome)

inductive Event where
  | record (r : Rec)
  | logLine (s : String)
  | loggerLine (s : String)
  | dbgDump
  | hook (h : HookCall)

/-- The text printed by the log macro: std::println with the format
string log underscore level equals message (log.rs lines 161 to 164). -/
def logLineStr (lvl : Level) (msg : String) : String :=
  "log_" ++ lvl.render ++ "=" ++ msg

/-- One gated emission: the log macro (log.rs lines 157 to 168) prints
iff lvl is less than or equal to the current max level, comparing the
usize discriminants (PartialOrd of Level against LevelFilter,
log.rs lines 98 to 123). -/
def emitLog (threshold : LevelFilter) (lvl : Level) (msg : String) : List Event :=
  if lvl.toNat ≤ threshold.toNat then [Event.logLine (logLineStr lvl msg)] else []

/-! ## Result types and their outcome projections (src/src/protocol.rs)

Each outcome projection may emit log lines; it takes the current
threshold and returns the wire outcome together with the emitted events.
-/

inductive ValidateResult where
  | valid
  | invalid (reason : String)
  | error (reason : String)
  deriving DecidableEq

/-- ValidateResult::outcome (protocol.rs lines 36 to 50): invalid and
error log their reason at error level. -/
def ValidateResult.outcome (th : LevelFilter) : ValidateResult → ValidateOutcome × List Event
  | .valid => (.valid, [])
  | .invalid e => (.invalid, emitLog th .error e)
  | .error e => (.error, emitLog th .error e)

inductive CheckResult where
  | kept
  | alwaysApply
  | notKept (reason : String)
  | error (reason : String)
  deriving DecidableEq

/-- CheckResult::outcome (protocol.rs lines 132 to 155): alwaysApply maps
to notKept with an info log; notKept logs its reason at error level when
check-only and at info level otherwise; error logs at error level. -/
def CheckResult.outcome (th : LevelFilter) (is_check_only : Bool) :
    CheckResult → EvaluateOutcome × List Event
  | .kept => (.kept, [])
  | .alwaysApply => (.notKept, emitLog th .info "This promise needs to be applied")
  | .notKept e => (.notKept, emitLog th (if is_check_only then Level.error else Level.info) e)
  | .error e => (.error, emitLog th .error e)

inductive ApplyResult where
  | kept
  | repaired (reason : String)
  | notKept (reason : String)
  | error (reason : String)
  | auditOnly
  deriving DecidableEq

/-- ApplyResult::outcome (protocol.rs lines 88 to 110). -/
def ApplyResult.outcome (th : LevelFilter) : ApplyResult → EvaluateOutcome × List Event
  | .kept => (.kept, [])
  | .repaired m => (.repaired, emitLog th .info m)
  | .notKept e => (.notKept, emitLog th .error e)
  | .error e => (.error, emitLog th .error e)
  | .auditOnly => (.error, emitLog th .error "Should not be applied, audit only promise")

inductive ProtocolResult where
  | success
  | failure (reason : String)
  | error (reason : String)
  deriving DecidableEq

/-- ProtocolResult::outcome (protocol.rs lines 184 to 198): failure and
error log their reason at error level. -/
def ProtocolResult.outcome (th : LevelFilter) : ProtocolResult → ProtocolOutcome × List Event
  | .success => (.success, [])
  | .failure e => (.failure, emitLog th .error e)
  | .error e => (.error, emitLog th .error e)

/-! ## The PromiseType trait (src/src/lib.rs lines 33 to 95)

init, check, apply and terminate take the receiver by mutable reference;
validate, name, version and the attribute declarations take it by shared
reference.  Embedded as explicit state passing over a state type sigma.
-/

structure PromiseType (σ : Type) where
  name : String
  version : String
  init : σ → σ × ProtocolResult
  required_attributes : σ → List (String × AttributeType)
  optional_attributes : σ → List (String × AttributeType)
  validate : σ → String → AttrMap → ValidateResult
  check : σ → String → AttrMap → σ × CheckResult
  apply : σ → String → AttrMap → σ × ApplyResult
  terminate : σ → σ × ProtocolResult

/-! ## check_attributes (src/src/executor.rs lines 111 to 143)

The source runs three passes in order: missing required attributes, type
mismatches over required chained with optional, and (unless
ignore_unknown_attributes) attributes outside the declared set.  In each
pass the offending case evaluates the anyhow macro, which merely
CONSTRUCTS an error value; the statement discards it and no return is
ever taken, so check_attributes returns Ok of unit on every input.
checkAttributeViolations computes exactly the violations for which the
source constructs (and discards) an error value, in source order.
-/

inductive AttrViolation where
  | missingRequired (attr : String)
  | typeMismatch (attr : String)
  | unexpected (attr : String)
  deriving DecidableEq

def checkAttributeViolations (ignoreUnknown : Bool) (attributes : AttrMap)
    (required optional : List (String × AttributeType)) : List AttrViolation :=
  (required.filterMap fun p =>
    if (attrGet attributes p.1).isNone then some (AttrViolation.missingRequired p.1) else none)
  ++ ((required ++ optional).filterMap fun p =>
    match attrGet attributes p.1 with
    | some v => if p.2.has_type v then none else some (AttrViolation.typeMismatch p.1)
    | none => none)
  ++ (if ignoreUnknown then []
      else attributes.filterMap fun kv =>
        if (required ++ optional).all (fun p => p.1 != kv.1)
        then some (AttrViolation.unexpected kv.1) else none)

/-- Embeds Executor::check_attributes as the source behaves: the
violations are computed (executor.rs lines 117 to 140) but every
constructed error value is discarded — the anyhow calls at lines 119,
125 and 137 are expression statements with no return — so the function
unconditionally returns Ok of unit. -/
def check_attributes (ignoreUnknown : Bool) (attributes : AttrMap)
    (required optional : List (String × AttributeType)) : Except String Unit :=
  let _violations := checkAttributeViolations ignoreUnknown attributes required optional
  Except.ok ()

/-! ## Byte-level record framing (src/src/executor.rs lines 79 to 99)

Byte streams are embedded as lists of characters.  The source reads via
a std::io::Lines iterator; rustLines embeds BufRead::lines: split at each
newline byte, drop the final empty segment produced by a trailing
newline, and strip one trailing carriage return from every line that was
terminated by a newline (BufRead::lines removes a trailing CRLF pair;
a final segment at end of input without a newline is yielded as is).
-/

def splitNL : List Char → List (List Char)
  | [] => [[]]
  | c :: rest =>
    let r := splitNL rest
    if c = '\n' then [] :: r
    else match r with
      | [] => [[c]]
      | l :: ls => (c :: l) :: ls

/-- Strip one trailing carriage return, as BufRead::lines does on a line
terminated by CRLF. -/
def stripCR (l : List Char) : List Char :=
  if l.getLast? = some '\r' then l.dropLast else l

/-- Embeds the line sequence a std::io::Lines iterator yields on the
given byte stream. -/
def rustLines (s : List Char) : List (List Char) :=
  let parts := splitNL s
  if parts.getLast? = some [] then parts.dropLast.map stripCR
  else parts.dropLast.map stripCR ++ [parts.getLastD []]

/-- Result of Executor::read_line: panicked models the unwrap of a None
from the Lines iterator at end of input (executor.rs lines 81 and 85);
framingErr models the anyhow error returned when the separator line is
not empty (line 87). -/
inductive ReadRes where
  | panicked
  | framingErr
  | ok (line : List Char) (rest : List (List Char))
  deriving DecidableEq

/-- Embeds Executor::read_line (executor.rs lines 79 to 91): take the
next line, then exactly one further line (the loop runs for the single
index zero) which must be empty. -/
def read_line : List (List Char) → ReadRes
  | [] => ReadRes.panicked
  | _l :: [] => ReadRes.panicked
  | l :: e :: rest => if e = [] then ReadRes.ok l rest else ReadRes.framingErr

/-- Embeds Executor::write_line (executor.rs lines 93 to 99): append the
payload bytes then a newline and a second newline.  The flush that
follows does not change the byte sequence and has no pure counterpart. -/
def writeLineBytes (payload : List Char) : List Char :=
  payload ++ ['\n', '\n']

/-! ## Requests and the run_type loop (src/src/executor.rs lines 145 to 227)

Each iteration of the source loop reads one framed line and tries to
deserialize it with serde_json, first as a ValidateRequest, then as an
EvaluateRequest, then as a TerminateRequest; the three request structs
carry distinct constant operation tags (validate_promise,
evaluate_promise, terminate), so at most one of the three attempts can
succeed on a given line.  serde_json is an external dependency, so the
loop is embedded over the per-line parse outcome: one Request value per
line read, with the garbage constructor (carrying the raw line text) for
a line none of the three shapes accepts.
-/

inductive Request where
  | validateReq (log_level : LevelFilter) (promiser : String) (attributes : AttrMap)
  | evaluateReq (log_level : LevelFilter) (promiser : String) (attributes : AttrMap)
  | terminateReq
  | garbage (line : String)

/-- Mutable state threaded through the loop: the process-wide log
threshold MAX_LOG_LEVEL_FILTER (log.rs line 137, initial value zero,
i.e. critical) and the promise implementation's own state. -/
structure DState (σ : Type) where
  threshold : LevelFilter
  pstate : σ

/-- Outcome of run_type: ok for the Ok return after a terminate request,
err for an anyhow error return, panicked when read_line unwrapped a None
at end of input. -/
inductive RunResult where
  | ok
  | err (msg : String)
  | panicked
  deriving DecidableEq

/-- What one dispatched request does to the loop: continue with a new
state, or stop the whole run with a result. -/
inductive StepOut (σ : Type) where
  | next (st : DState σ) (evs : List Event)
  | stop (r : RunResult) (evs : List Event)

/-- The test executor.rs line 204 uses to decide audit mode: presence of
the action_policy key in the attribute map, whatever its value. -/
def is_check_only (attrs : AttrMap) : Bool :=
  (attrGet attrs "action_policy").isSome

/-- Embeds the ValidateRequest branch (executor.rs lines 187 to 200):
set the threshold from the request's log_level, run check_attributes
(whose Err would propagate out of run_type, but which always returns Ok,
see check_attributes), call the validate hook, project its result to an
outcome, and write the response echoing promiser and attributes. -/
def handleValidate {σ : Type} (ignoreUnknown : Bool) (P : PromiseType σ) (st : DState σ)
    (lvl : LevelFilter) (promiser : String) (attrs : AttrMap) : StepOut σ :=
  match check_attributes ignoreUnknown attrs (P.required_attributes st.pstate)
      (P.optional_attributes st.pstate) with
  | Except.error e => StepOut.stop (RunResult.err e) []
  | Except.ok _ =>
    let o := (P.validate st.pstate promiser attrs).outcome lvl
    StepOut.next ⟨lvl, st.pstate⟩
      (Event.hook (HookCall.validateH promiser) :: o.2
        ++ [Event.record (Rec.validateResp promiser attrs o.1)])

/-- Embeds the EvaluateRequest branch (executor.rs lines 201 to 217):
set the threshold from the request's log_level, read the audit signal,
always call the check hook first, and when the run is not check-only and
the mapped outcome differs from kept call the apply hook, whose mapped
outcome replaces the result; write the response echoing promiser and
attributes. -/
def handleEvaluate {σ : Type} (P : PromiseType σ) (st : DState σ)
    (lvl : LevelFilter) (promiser : String) (attrs : AttrMap) : DState σ × List Event :=
  let co := is_check_only attrs
  let c := P.check st.pstate promiser attrs
  let o1 := (c.2).outcome lvl co
  if !co && (o1.1 != EvaluateOutcome.kept) then
    let a := P.apply c.1 promiser attrs
    let o2 := (a.2).outcome lvl
    (⟨lvl, a.1⟩,
      Event.hook (HookCall.checkH promiser) :: o1.2
        ++ Event.hook (HookCall.applyH promiser) :: o2.2
        ++ [Event.record (Rec.evaluateResp promiser attrs o2.1)])
  else
    (⟨lvl, c.1⟩,
      Event.hook (HookCall.checkH promiser) :: o1.2
        ++ [Event.record (Rec.evaluateResp promiser attrs o1.1)])

/-- Embeds the TerminateRequest branch (executor.rs lines 218 to 221):
call the terminate hook, project its result under the threshold left by
the last validate or evaluate request (a terminate request carries no
log_level and sets none), write the response.  run_type then returns Ok. -/
def handleTerminate {σ : Type} (P : PromiseType σ) (st : DState σ) : DState σ × List Event :=
  let t := P.terminate st.pstate
  let o := (t.2).outcome st.threshold
  (⟨st.threshold, t.1⟩,
    Event.hook HookCall.terminateH :: o.2
      ++ [Event.record (Rec.terminateResp o.1)])

/-- Dispatch of one parsed line (executor.rs lines 187 to 225): the
final else branch returns the could-not-parse error, aborting the run. -/
def dispatch {σ : Type} (ignoreUnknown : Bool) (P : PromiseType σ) (st : DState σ) :
    Request → StepOut σ
  | .validateReq lvl promiser attrs => handleValidate ignoreUnknown P st lvl promiser attrs
  | .evaluateReq lvl promiser attrs =>
    let r := handleEvaluate P st lvl promiser attrs
    StepOut.next r.1 r.2
  | .terminateReq =>
    let r := handleTerminate P st
    StepOut.stop RunResult.ok r.2
  | .garbage line => StepOut.stop (RunResult.err ("Could not parse request: " ++ line)) []

/-- Embeds the main loop of run_type (executor.rs lines 166 to 226).
Each iteration: read the next line (end of input panics, see read_line),
dump it with the dbg macro, lazily run the init hook exactly once — a
failure or error result aborts the run before any dispatch — then
dispatch the request. -/
def runLoop {σ : Type} (ignoreUnknown : Bool) (P : PromiseType σ) :
    List Request → DState σ → Bool → RunResult × List Event
  | [], _, _ => (RunResult.panicked, [])
  | req :: rest, st, initialized =>
    if initialized then
      match dispatch ignoreUnknown P st req with
      | StepOut.next st' evs =>
        let r := runLoop ignoreUnknown P rest st' true
        (r.1, Event.dbgDump :: (evs ++ r.2))
      | StepOut.stop res evs => (res, Event.dbgDump :: evs)
    else
      let ini := P.init st.pstate
      match ini.2 with
      | ProtocolResult.failure e =>
        (RunResult.err ("failed to initialize promise type: " ++ e),
         [Event.dbgDump, Event.hook HookCall.initH])
      | ProtocolResult.error e =>
        (RunResult.err ("failed to initialize promise type with unexpected: " ++ e),
         [Event.dbgDump, Event.hook HookCall.initH])
      | ProtocolResult.success =>
        match dispatch ignoreUnknown P { st with pstate := ini.1 } req with
        | StepOut.next st' evs =>
          let r := runLoop ignoreUnknown P rest st' true
          (r.1, Event.dbgDump :: Event.hook HookCall.initH :: (evs ++ r.2))
        | StepOut.stop res evs =>
          (res, Event.dbgDump :: Event.hook HookCall.initH :: evs)

/-- Modelled from the spec: header.rs is declared in lib.rs but absent
from src/.  Per section 4.2 the identity record has the fixed textual
form of the name, a space, and the version; this renders the header
record run_type writes at executor.rs lines 159 to 161. -/
def headerToString (name version : String) : String :=
  name ++ " " ++ version

/-- Embeds Executor::run_type (executor.rs lines 145 to 227) from the
point where the agent's header has been read, parsed and found
compatible (the parse and compatibility rule live in header.rs, absent
from src/ and modelled from the spec; every claim below concerns the
behavior after a successful handshake).  run_type writes its own
identity record and enters the loop with the initial threshold critical
(MAX_LOG_LEVEL_FILTER starts at zero) and the init hook not yet run. -/
def run_type {σ : Type} (ignoreUnknown : Bool) (P : PromiseType σ) (s0 : σ)
    (reqs : List Request) : RunResult × List Event :=
  let r := runLoop ignoreUnknown P reqs ⟨LevelFilter.critical, s0⟩ false
  (r.1, Event.record (Rec.headerRec P.name P.version) :: r.2)

/-! ## Trace scanners -/

def isInitHook : Event → Bool
  | .hook .initH => true
  | _ => false

def countInitHooks (evs : List Event) : Nat :=
  evs.countP isInitHook

def isApplyHookEv : Event → Bool
  | .hook (.applyH _) => true
  | _ => false

def hasApplyHook (evs : List Event) : Bool :=
  evs.any isApplyHookEv

def evalResultOf : Event → Option EvaluateOutcome
  | .record (.evaluateResp _ _ r) => some r
  | _ => none

/-- The evaluate results carried by the response records of a trace. -/
def evalResults (evs : List Event) : List EvaluateOutcome :=
  evs.filterMap evalResultOf

def logLineOf : Event → Option String
  | .logLine s => some s
  | _ => none

/-- The log lines the run emitted (printed by the log macro). -/
def emittedLogs (evs : List Event) : List String :=
  evs.filterMap logLineOf

def loggerLineOf : Event → Option String
  | .loggerLine s => some s
  | _ => none

/-- The lines written to the logger sink L handed to run_type. -/
def loggerLines (evs : List Event) : List String :=
  evs.filterMap loggerLineOf

/-- One item of the byte stream on the process standard output under
Executor::run: there the record sink W is the locked stdout, and the log
macro prints to stdout as well, so both record writes and log prints
land on the same stream, in trace order. -/
inductive StdoutItem where
  | recI (r : Rec)
  | logI (s : String)

def stdoutItemOf : Event → Option StdoutItem
  | .record r => some (StdoutItem.recI r)
  | .logLine s => some (StdoutItem.logI s)
  | _ => none

def stdoutItems (evs : List Event) : List StdoutItem :=
  evs.filterMap stdoutItemOf

/-- The log line carried by a stdout item, when it is one. -/
def stdoutLogOf : StdoutItem → Option String
  | .logI s => some s
  | _ => none

/-- Projection of a StepOut to its event list. -/
def StepOut.evs {σ : Type} : StepOut σ → List Event
  | .next _ e => e
  | .stop _ e => e

/-! ## Helper lemmas: event-kind invariants -/

lemma mem_emitLog {th : LevelFilter} {lvl : Level} {msg : String} {e : Event}
    (h : e ∈ emitLog th lvl msg) : ∃ s, e = Event.logLine s := by
  unfold emitLog at h
  split at h
  · simp only [List.mem_singleton] at h
    exact ⟨_, h⟩
  · simp at h

lemma mem_validate_outcome {th : LevelFilter} {v : ValidateResult} {e : Event}
    (h : e ∈ (v.outcome th).2) : ∃ s, e = Event.logLine s := by
  cases v <;> simp only [ValidateResult.outcome] at h
  · simp at h
  · exact mem_emitLog h
  · exact mem_emitLog h

lemma mem_check_outcome {th : LevelFilter} {co : Bool} {c : CheckResult} {e : Event}
    (h : e ∈ (c.outcome th co).2) : ∃ s, e = Event.logLine s := by
  cases c <;> simp only [CheckResult.outcome] at h
  · simp at h
  · exact mem_emitLog h
  · exact mem_emitLog h
  · exact mem_emitLog h

lemma mem_apply_outcome {th : LevelFilter} {a : ApplyResult} {e : Event}
    (h : e ∈ (a.outcome th).2) : ∃ s, e = Event.logLine s := by
  cases a <;> simp only [ApplyResult.outcome] at h
  · simp at h
  · exact mem_emitLog h
  · exact mem_emitLog h
  · exact mem_emitLog h
  · exact mem_emitLog h

lemma mem_protocol_outcome {th : LevelFilter} {p : ProtocolResult} {e : Event}
    (h : e ∈ (p.outcome th).2) : ∃ s, e = Event.logLine s := by
  cases p <;> simp only [ProtocolResult.outcome] at h
  · simp at h
  · exact mem_emitLog h
  · exact mem_emitLog h

/-- Events that are neither an init hook nor a logger write; every event
produced past lazy initialization (dispatch traces, dbg dumps) is of
this kind. -/
def dispatchEv : Event → Bool
  | .hook .initH => false
  | .loggerLine _ => false
  | _ => true

lemma dispatchEv_of_logLine {e : Event} (h : ∃ s, e = Event.logLine s) :
    dispatchEv e = true := by
  obtain ⟨s, rfl⟩ := h
  rfl

lemma handleValidate_eq {σ : Type} (ign : Bool) (P : PromiseType σ) (st : DState σ)
    (lvl : LevelFilter) (promiser : String) (attrs : AttrMap) :
    handleValidate ign P st lvl promiser attrs =
      StepOut.next ⟨lvl, st.pstate⟩
        (Event.hook (HookCall.validateH promiser)
          :: ((P.validate st.pstate promiser attrs).outcome lvl).2
          ++ [Event.record (Rec.validateResp promiser attrs
                ((P.validate st.pstate promiser attrs).outcome lvl).1)]) := rfl

lemma dispatch_all_dispatchEv {σ : Type} (ign : Bool) (P : PromiseType σ) (st : DState σ)
    (req : Request) : ((dispatch ign P st req).evs).all dispatchEv = true := by
  rw [List.all_eq_true]
  intro e he
  cases req with
  | validateReq lvl promiser attrs =>
    rw [dispatch, handleValidate_eq] at he
    simp only [StepOut.evs, List.cons_append, List.mem_cons, List.mem_append,
      List.not_mem_nil, or_false] at he
    rcases he with rfl | he | rfl
    · rfl
    · exact dispatchEv_of_logLine (mem_validate_outcome he)
    · rfl
  | evaluateReq lvl promiser attrs =>
    simp only [dispatch, handleEvaluate, StepOut.evs] at he
    split at he <;>
      simp only [List.cons_append, List.mem_cons, List.mem_append,
        List.not_mem_nil, or_false, or_assoc] at he
    · rcases he with rfl | he | rfl | he | rfl
      · rfl
      · exact dispatchEv_of_logLine (mem_check_outcome he)
      · rfl
      · exact dispatchEv_of_logLine (mem_apply_outcome he)
      · rfl
    · rcases he with rfl | he | rfl
      · rfl
      · exact dispatchEv_of_logLine (mem_check_outcome he)
      · rfl
  | terminateReq =>
    simp only [dispatch, handleTerminate, StepOut.evs, List.cons_append, List.mem_cons,
      List.mem_append, List.not_mem_nil, or_false] at he
    rcases he with rfl | he | rfl
    · rfl
    · exact dispatchEv_of_logLine (mem_protocol_outcome he)
    · rfl
  | garbage line =>
    simp [dispatch, StepOut.evs] at he

lemma runLoop_true_all_dispatchEv {σ : Type} (ign : Bool) (P : PromiseType σ) :
    ∀ (reqs : List Request) (st : DState σ),
      ((runLoop ign P reqs st true).2).all dispatchEv = true := by
  intro reqs
  induction reqs with
  | nil => intro st; simp [runLoop]
  | cons req rest ih =>
    intro st
    rw [runLoop]
    simp only [if_true]
    cases hd : dispatch ign P st req with
    | next st' evs =>
      have h1 := dispatch_all_dispatchEv ign P st req
      rw [hd] at h1
      simp only [StepOut.evs] at h1
      simp only [List.all_cons, List.all_append, Bool.and_eq_true]
      exact ⟨rfl, h1, ih st'⟩
    | stop res evs =>
      have h1 := dispatch_all_dispatchEv ign P st req
      rw [hd] at h1
      simp only [StepOut.evs] at h1
      simp only [List.all_cons, Bool.and_eq_true]
      exact ⟨rfl, h1⟩

lemma countInit_of_all_dispatchEv {evs : List Event} (h : evs.all dispatchEv = true) :
    countInitHooks evs = 0 := by
  rw [countInitHooks, List.countP_eq_zero]
  rw [List.all_eq_true] at h
  intro e he
  have h2 := h e he
  intro hinit
  cases e with
  | hook hk => cases hk <;> simp_all [dispatchEv, isInitHook]
  | record r => simp_all [isInitHook]
  | logLine s => simp_all [isInitHook]
  | loggerLine s => simp_all [dispatchEv]
  | dbgDump => simp_all [isInitHook]

lemma loggerLines_of_all_dispatchEv {evs : List Event} (h : evs.all dispatchEv = true) :
    loggerLines evs = [] := by
  rw [loggerLines, List.filterMap_eq_nil_iff]
  rw [List.all_eq_true] at h
  intro e he
  have h2 := h e he
  cases e <;> simp_all [dispatchEv, loggerLineOf]

/-! Cons and append computation rules for the scanners. -/

lemma evalResults_cons_hook (h : HookCall) (t : List Event) :
    evalResults (Event.hook h :: t) = evalResults t := rfl

lemma evalResults_cons_log (s : String) (t : List Event) :
    evalResults (Event.logLine s :: t) = evalResults t := rfl

lemma evalResults_cons_evalResp (p : String) (a : AttrMap) (r : EvaluateOutcome)
    (t : List Event) :
    evalResults (Event.record (Rec.evaluateResp p a r) :: t) = r :: evalResults t := rfl

lemma evalResults_append (a b : List Event) :
    evalResults (a ++ b) = evalResults a ++ evalResults b := by
  simp [evalResults, List.filterMap_append]

lemma loggerLines_append (a b : List Event) :
    loggerLines (a ++ b) = loggerLines a ++ loggerLines b := by
  simp [loggerLines, List.filterMap_append]

/-- Log-only event lists contribute nothing to evalResults. -/
lemma evalResults_of_logs {evs : List Event}
    (h : ∀ e ∈ evs, ∃ s, e = Event.logLine s) : evalResults evs = [] := by
  rw [evalResults, List.filterMap_eq_nil_iff]
  intro e he
  obtain ⟨s, rfl⟩ := h e he
  rfl

/-- Log-only event lists contain no apply hook. -/
lemma any_apply_of_logs {evs : List Event}
    (h : ∀ e ∈ evs, ∃ s, e = Event.logLine s) : evs.any isApplyHookEv = false := by
  rw [List.any_eq_false]
  intro e he
  obtain ⟨s, rfl⟩ := h e he
  simp [isApplyHookEv]

/-- No part of the loop ever writes to the logger sink. -/
lemma loggerLines_runLoop {σ : Type} (ign : Bool) (P : PromiseType σ)
    (reqs : List Request) (st : DState σ) (b : Bool) :
    loggerLines (runLoop ign P reqs st b).2 = [] := by
  cases b with
  | true => exact loggerLines_of_all_dispatchEv (runLoop_true_all_dispatchEv ign P reqs st)
  | false =>
    cases reqs with
    | nil => rfl
    | cons req rest =>
      rw [runLoop]
      simp only [Bool.false_eq_true, if_false]
      cases hini : (P.init st.pstate).2 with
      | failure e => rfl
      | error e => rfl
      | success =>
        cases hd : dispatch ign P { st with pstate := (P.init st.pstate).1 } req with
        | next st' evs =>
          have h1 := loggerLines_of_all_dispatchEv (dispatch_all_dispatchEv ign P
            { st with pstate := (P.init st.pstate).1 } req)
          rw [hd] at h1
          simp only [StepOut.evs] at h1
          have h2 := loggerLines_of_all_dispatchEv (runLoop_true_all_dispatchEv ign P rest st')
          show loggerLines (evs ++ (runLoop ign P rest st' true).2) = []
          rw [loggerLines_append, h1, h2]
          rfl
        | stop res evs =>
          have h1 := loggerLines_of_all_dispatchEv (dispatch_all_dispatchEv ign P
            { st with pstate := (P.init st.pstate).1 } req)
          rw [hd] at h1
          simp only [StepOut.evs] at h1
          exact h1

lemma loggerLines_run_type {σ : Type} (ign : Bool) (P : PromiseType σ) (s0 : σ)
    (reqs : List Request) : loggerLines (run_type ign P s0 reqs).2 = [] :=
  loggerLines_runLoop ign P reqs ⟨LevelFilter.critical, s0⟩ false

/-- Routing: the log items of the stdout stream are exactly the emitted
log lines, in order. -/
lemma stdout_logs_eq (evs : List Event) :
    (stdoutItems evs).filterMap stdoutLogOf = emittedLogs evs := by
  induction evs with
  | nil => rfl
  | cons e t ih =>
    cases e <;>
      simp only [stdoutItems, emittedLogs, List.filterMap_cons, stdoutItemOf, logLineOf,
        stdoutLogOf] at ih ⊢ <;>
      simp [ih]

/-- Splitting a newline-free payload followed by the two newline bytes
write_line appends. -/
lemma splitNL_append_two_nl (p : List Char) (h : '\n' ∉ p) :
    splitNL (p ++ ['\n', '\n']) = [p, [], []] := by
  induction p with
  | nil => rfl
  | cons c t ih =>
    have hc : ¬(c = '\n') := fun hcc => h (hcc ▸ List.mem_cons_self c t)
    have ht : '\n' ∉ t := fun hm => h (List.mem_cons_of_mem c hm)
    simp only [List.cons_append, splitNL, List.append_eq, ih ht, if_neg hc]

lemma hasApplyHook_nil : hasApplyHook [] = false := rfl

lemma hasApplyHook_cons (e : Event) (t : List Event) :
    hasApplyHook (e :: t) = (isApplyHookEv e || hasApplyHook t) := by
  simp [hasApplyHook, List.any_cons]

lemma hasApplyHook_append (a b : List Event) :
    hasApplyHook (a ++ b) = (hasApplyHook a || hasApplyHook b) := by
  simp [hasApplyHook, List.any_append]

lemma hasApplyHook_of_logs {evs : List Event}
    (h : ∀ e ∈ evs, ∃ s, e = Event.logLine s) : hasApplyHook evs = false :=
  any_apply_of_logs h

lemma evalResults_nil : evalResults [] = [] := rfl

lemma evalResults_emitLog (th : LevelFilter) (l : Level) (m : String) :
    evalResults (emitLog th l m) = [] :=
  evalResults_of_logs fun _ he => mem_emitLog he

/-! ## Concrete promise implementations for the closed runs -/

/-- A concrete promise implementation with constant hook results. -/
def mkPromise (initR : ProtocolResult) (reqA optA : List (String × AttributeType))
    (vres : ValidateResult) (cres : CheckResult) (ares : ApplyResult)
    (tres : ProtocolResult) : PromiseType Unit where
  name := "test"
  version := "1.0"
  init := fun s => (s, initR)
  required_attributes := fun _ => reqA
  optional_attributes := fun _ => optA
  validate := fun _ _ _ => vres
  check := fun s _ _ => (s, cres)
  apply := fun s _ _ => (s, ares)
  terminate := fun s => (s, tres)

/-- Schema requires a string attribute named state; every hook succeeds. -/
def P1 : PromiseType Unit :=
  mkPromise ProtocolResult.success [("state", AttributeType.string)] []
    ValidateResult.valid CheckResult.kept ApplyResult.kept ProtocolResult.success

/-- Check detects drift, apply repairs it. -/
def P2 : PromiseType Unit :=
  mkPromise ProtocolResult.success [] []
    ValidateResult.valid (CheckResult.notKept "drift") (ApplyResult.repaired "fixed")
    ProtocolResult.success

/-- Check reports an unexpected error, apply reports kept. -/
def P3 : PromiseType Unit :=
  mkPromise ProtocolResult.success [] []
    ValidateResult.valid (CheckResult.error "boom") ApplyResult.kept
    ProtocolResult.success

/-- Check detects drift; used for the audit-mode witness. -/
def P4 : PromiseType Unit :=
  mkPromise ProtocolResult.success [] []
    ValidateResult.valid (CheckResult.notKept "drift") (ApplyResult.repaired "fixed")
    ProtocolResult.success

/-- Initialization fails. -/
def PInitFail : PromiseType Unit :=
  mkPromise (ProtocolResult.failure "boom") [] []
    ValidateResult.valid CheckResult.kept ApplyResult.kept ProtocolResult.success

/-! ## Claims -/

/-- C1: the claim states that a validate or evaluate request whose
attribute map violates the declared schema makes check_attributes return
an error and aborts the run before any hook runs and before any response
is written.  The code contradicts this: check_attributes constructs the
anyhow error values but never returns them (executor.rs lines 119, 125
and 137 lack a return), so it succeeds on every input — first conjunct.
On the concrete failing input (empty attribute map against a schema
requiring a string attribute named state) the violation exists — second
conjunct — yet the validate hook is invoked, the response is written and
the run completes — third conjunct.  (For evaluate requests the source
does not call check_attributes at all.) -/
theorem C1_schema_violation_not_fatal :
    (∀ (ign : Bool) (attrs : AttrMap) (reqA optA : List (String × AttributeType)),
      check_attributes ign attrs reqA optA = Except.ok ())
    ∧ checkAttributeViolations false [] [("state", AttributeType.string)] []
        = [AttrViolation.missingRequired "state"]
    ∧ run_type false P1 ()
        [Request.validateReq LevelFilter.info "/tmp/x" [], Request.terminateReq]
        = (RunResult.ok,
           [Event.record (Rec.headerRec "test" "1.0"), Event.dbgDump,
            Event.hook HookCall.initH, Event.hook (HookCall.validateH "/tmp/x"),
            Event.record (Rec.validateResp "/tmp/x" [] ValidateOutcome.valid),
            Event.dbgDump, Event.hook HookCall.terminateH,
            Event.record (Rec.terminateResp ProtocolOutcome.success)]) :=
  ⟨fun _ _ _ _ => rfl, rfl, rfl⟩

/-- C6 counterexample: the claim asserts the round-trip for every payload
containing no newline, but a payload ending in a carriage return is read
back without it, because the Lines iterator strips a trailing CRLF pair:
writing the two-byte payload a CR produces the bytes a CR NL NL, and
reading them back yields the one-byte payload a. -/
theorem C6_counterexample_trailing_cr :
    '\n' ∉ ['a', '\r']
    ∧ read_line (rustLines (writeLineBytes ['a', '\r'])) = ReadRes.ok ['a'] []
    ∧ ['a'] ≠ ['a', '\r'] :=
  ⟨by decide, by decide, by decide⟩

/-- C6 amended: writing a record appends the payload, a newline and a
second newline and flushes; reading takes the next line and exactly one
further line which must be empty.  For every payload containing no
newline AND not ending in a carriage return (the Lines iterator strips a
trailing CRLF), reading the bytes produced by writing yields the payload
unchanged with the input exhausted. -/
theorem C6_record_roundtrip (payload : List Char) (h1 : '\n' ∉ payload)
    (h2 : payload.getLast? ≠ some '\r') :
    read_line (rustLines (writeLineBytes payload)) = ReadRes.ok payload [] := by
  unfold writeLineBytes rustLines
  rw [splitNL_append_two_nl payload h1]
  have hl : ([payload, [], []] : List (List Char)).getLast? = some [] := by
    simp
  rw [if_pos hl]
  show ReadRes.ok (stripCR payload) [] = ReadRes.ok payload []
  unfold stripCR
  rw [if_neg h2]

/-- C6 witness: the round-trip at the concrete two-byte payload h i. -/
theorem C6_record_roundtrip_witness :
    '\n' ∉ ['h', 'i']
    ∧ (['h', 'i'] : List Char).getLast? ≠ some '\r'
    ∧ read_line (rustLines (writeLineBytes ['h', 'i'])) = ReadRes.ok ['h', 'i'] [] :=
  ⟨by decide, by decide, C6_record_roundtrip ['h', 'i'] (by decide) (by decide)⟩

/-- C8: once a terminate request is dispatched, the loop calls the
terminate hook, projects its ProtocolResult to a ProtocolOutcome, writes
the terminate response, and returns Ok — whatever requests follow (first
conjunct: the remaining input is never read) and whatever the terminate
hook returned (the promise and its state are universally quantified, so
the Ok result holds for success, failure and error alike). -/
theorem C8_terminate_completes {σ : Type} (ign : Bool) (P : PromiseType σ) (st : DState σ)
    (rest rest' : List Request) :
    runLoop ign P (Request.terminateReq :: rest) st true =
      runLoop ign P (Request.terminateReq :: rest') st true
    ∧ (runLoop ign P (Request.terminateReq :: rest) st true).1 = RunResult.ok
    ∧ (runLoop ign P (Request.terminateReq :: rest) st true).2 =
        Event.dbgDump :: Event.hook HookCall.terminateH ::
          (((P.terminate st.pstate).2.outcome st.threshold).2
            ++ [Event.record (Rec.terminateResp
                  (((P.terminate st.pstate).2.outcome st.threshold).1))]) :=
  ⟨rfl, rfl, rfl⟩

/-- C9: a message is emitted iff its level is at least as severe as the
current threshold (the discriminants rank critical lowest, so at least
as severe means a discriminant less than or equal to the threshold's);
validate and evaluate dispatch is independent of the previously stored
threshold and stores the request's log_level as the new threshold, while
terminate dispatch reuses the stored threshold unchanged, both for its
own log projection and as the threshold left behind. -/
theorem C9_threshold_per_request {σ : Type} (ign : Bool) (P : PromiseType σ)
    (t1 t2 : LevelFilter) (s : σ) (lvl : LevelFilter) (promiser : String) (attrs : AttrMap) :
    (∀ (th : LevelFilter) (l : Level) (m : String),
      emitLog th l m ≠ [] ↔ l.toNat ≤ th.toNat)
    ∧ handleValidate ign P ⟨t1, s⟩ lvl promiser attrs
        = handleValidate ign P ⟨t2, s⟩ lvl promiser attrs
    ∧ handleEvaluate P ⟨t1, s⟩ lvl promiser attrs
        = handleEvaluate P ⟨t2, s⟩ lvl promiser attrs
    ∧ handleValidate ign P ⟨t1, s⟩ lvl promiser attrs
        = StepOut.next ⟨lvl, s⟩ ((handleValidate ign P ⟨t1, s⟩ lvl promiser attrs).evs)
    ∧ (handleEvaluate P ⟨t1, s⟩ lvl promiser attrs).1.threshold = lvl
    ∧ (handleTerminate P ⟨t1, s⟩).1.threshold = t1
    ∧ (handleTerminate P ⟨t1, s⟩).2 =
        Event.hook HookCall.terminateH :: ((P.terminate s).2.outcome t1).2
          ++ [Event.record (Rec.terminateResp (((P.terminate s).2.outcome t1).1))] := by
  refine ⟨?_, rfl, rfl, rfl, ?_, rfl, rfl⟩
  · intro th l m
    unfold emitLog
    split <;> simp_all
  · simp only [handleEvaluate]
    split <;> rfl

/-- C10: read_line unwraps the Option returned by the Lines iterator, so
end of input — no line at all, or a content line with no terminating
blank line — panics instead of returning an error value; likewise the
loop panics when input is exhausted before a terminate request was
processed.  The embedded read function is total only thanks to the
explicit panicked constructor marking where the source panics. -/
theorem C10_read_line_panics_at_eof :
    read_line [] = ReadRes.panicked
    ∧ (∀ l : List Char, read_line [l] = ReadRes.panicked)
    ∧ (∀ (σ : Type) (ign : Bool) (P : PromiseType σ) (st : DState σ) (b : Bool),
        runLoop ign P [] st b = (RunResult.panicked, [])) :=
  ⟨rfl, fun _ => rfl, fun _ _ _ _ _ => rfl⟩

/-- C2 counterexample: the claim asserts that every emitted log line is
written to the logger stream and that the record output stream carries
only framed records.  In the concrete run below two log lines are
emitted (first conjunct), the logger stream receives nothing (second
conjunct), and the stream that is the process standard output under
Executor::run — where the record sink is the locked stdout and the log
macro prints via std::println — carries the two log lines between the
header record and the response record (third conjunct). -/
theorem C2_counterexample_logs_on_record_stream :
    emittedLogs (run_type false P2 ()
        [Request.evaluateReq LevelFilter.info "/x" [], Request.terminateReq]).2
      = ["log_info=drift", "log_info=fixed"]
    ∧ loggerLines (run_type false P2 ()
        [Request.evaluateReq LevelFilter.info "/x" [], Request.terminateReq]).2 = []
    ∧ stdoutItems (run_type false P2 ()
        [Request.evaluateReq LevelFilter.info "/x" [], Request.terminateReq]).2
      = [StdoutItem.recI (Rec.headerRec "test" "1.0"),
         StdoutItem.logI "log_info=drift",
         StdoutItem.logI "log_info=fixed",
         StdoutItem.recI (Rec.evaluateResp "/x" [] EvaluateOutcome.repaired),
         StdoutItem.recI (Rec.terminateResp ProtocolOutcome.success)] :=
  ⟨rfl, rfl, rfl⟩

/-- C2 amended: the logger stream handed to run_type is never written
(write_json discards it), so in every run it stays empty; the emitted
log lines are printed to the process standard output, the stream that
also carries the records under Executor::run — the stdout items of a
trace contain exactly the emitted log lines. -/
theorem C2_amended_log_routing :
    (∀ (σ : Type) (ign : Bool) (P : PromiseType σ) (s0 : σ) (reqs : List Request),
      loggerLines (run_type ign P s0 reqs).2 = [])
    ∧ (∀ evs : List Event, (stdoutItems evs).filterMap stdoutLogOf = emittedLogs evs) :=
  ⟨fun _ ign P s0 reqs => loggerLines_run_type ign P s0 reqs, stdout_logs_eq⟩

/-- C3 counterexample: the claim asserts that when check reports Error,
apply is not called and the final outcome is Error.  In the concrete run
below check reports an Error (first conjunct), yet the apply hook is
invoked (third conjunct) and the final outcome is apply's outcome Kept,
not Error (fourth conjunct); the full trace is the second conjunct. -/
theorem C3_counterexample_apply_after_check_error :
    (P3.check () "/p" []).2 = CheckResult.error "boom"
    ∧ run_type false P3 ()
        [Request.evaluateReq LevelFilter.critical "/p" [], Request.terminateReq]
        = (RunResult.ok,
           [Event.record (Rec.headerRec "test" "1.0"), Event.dbgDump,
            Event.hook HookCall.initH, Event.hook (HookCall.checkH "/p"),
            Event.hook (HookCall.applyH "/p"),
            Event.record (Rec.evaluateResp "/p" [] EvaluateOutcome.kept),
            Event.dbgDump, Event.hook HookCall.terminateH,
            Event.record (Rec.terminateResp ProtocolOutcome.success)])
    ∧ hasApplyHook (run_type false P3 ()
        [Request.evaluateReq LevelFilter.critical "/p" [], Request.terminateReq]).2 = true
    ∧ evalResults (run_type false P3 ()
        [Request.evaluateReq LevelFilter.critical "/p" [], Request.terminateReq]).2
      = [EvaluateOutcome.kept] :=
  ⟨rfl, rfl, rfl, rfl⟩

/-- C3 amended: the apply hook is called iff the run is not check-only
and the outcome check's result maps to is not Kept — that is, iff check
reports AlwaysApply, NotKept, or Error.  When check reports Kept, apply
is never called; when check reports Error in a run that is not
check-only, apply IS called, and whenever apply runs its mapped outcome
(not check's Error) becomes the final outcome written in the response. -/
theorem C3_apply_iff_outcome_not_kept {σ : Type} (P : PromiseType σ) (st : DState σ)
    (lvl : LevelFilter) (promiser : String) (attrs : AttrMap) :
    hasApplyHook (handleEvaluate P st lvl promiser attrs).2
      = (!is_check_only attrs
          && (((P.check st.pstate promiser attrs).2.outcome lvl (is_check_only attrs)).1
                != EvaluateOutcome.kept))
    ∧ ((!is_check_only attrs
          && (((P.check st.pstate promiser attrs).2.outcome lvl (is_check_only attrs)).1
                != EvaluateOutcome.kept)) = true →
        evalResults (handleEvaluate P st lvl promiser attrs).2
          = [((P.apply (P.check st.pstate promiser attrs).1 promiser attrs).2.outcome lvl).1]) := by
  have hc1 : hasApplyHook
      ((P.check st.pstate promiser attrs).2.outcome lvl (is_check_only attrs)).2 = false :=
    hasApplyHook_of_logs fun _ he => mem_check_outcome he
  have hc2 : hasApplyHook
      ((P.apply (P.check st.pstate promiser attrs).1 promiser attrs).2.outcome lvl).2 = false :=
    hasApplyHook_of_logs fun _ he => mem_apply_outcome he
  have he1 : evalResults
      ((P.check st.pstate promiser attrs).2.outcome lvl (is_check_only attrs)).2 = [] :=
    evalResults_of_logs fun _ he => mem_check_outcome he
  have he2 : evalResults
      ((P.apply (P.check st.pstate promiser attrs).1 promiser attrs).2.outcome lvl).2 = [] :=
    evalResults_of_logs fun _ he => mem_apply_outcome he
  cases hcond : (!is_check_only attrs
      && (((P.check st.pstate promiser attrs).2.outcome lvl (is_check_only attrs)).1
            != EvaluateOutcome.kept)) with
  | false =>
    refine ⟨?_, fun hcc => by simp at hcc⟩
    simp only [handleEvaluate, hcond, Bool.false_eq_true, if_false]
    simp [hasApplyHook_cons, hasApplyHook_append, hasApplyHook_nil, isApplyHookEv, hc1]
  | true =>
    refine ⟨?_, fun _ => ?_⟩
    · simp only [handleEvaluate, hcond, if_true]
      simp [hasApplyHook_cons, hasApplyHook_append, hasApplyHook_nil, isApplyHookEv]
    · simp only [handleEvaluate, hcond, if_true]
      simp [evalResults_cons_hook, evalResults_append, evalResults_cons_evalResp,
        evalResults_nil, he1, he2]

/-- C3 witness: applying the amended theorem to the concrete run whose
check reports Error and whose apply reports Kept — apply's outcome Kept
is the final outcome. -/
theorem C3_apply_iff_outcome_not_kept_witness :
    evalResults (handleEvaluate P3 ⟨LevelFilter.critical, ()⟩
        LevelFilter.critical "/p" []).2 = [EvaluateOutcome.kept] := by
  have h := (C3_apply_iff_outcome_not_kept P3 ⟨LevelFilter.critical, ()⟩
    LevelFilter.critical "/p" []).2 (by rfl)
  exact h

/-- C4: the run is check-only exactly when the attribute map contains
the action_policy key, whatever its value (first conjunct); in that case
the apply hook is never invoked, the trace is the check hook followed by
check's own log lines and the response carrying check's own outcome, and
a check result of NotKept yields the wire outcome NotKept. -/
theorem C4_action_policy_means_check_only {σ : Type} (P : PromiseType σ) (st : DState σ)
    (lvl : LevelFilter) (promiser : String) (attrs : AttrMap) :
    (is_check_only attrs = true ↔ ∃ v, attrGet attrs "action_policy" = some v)
    ∧ (is_check_only attrs = true →
        hasApplyHook (handleEvaluate P st lvl promiser attrs).2 = false
        ∧ (handleEvaluate P st lvl promiser attrs).2
            = Event.hook (HookCall.checkH promiser)
                :: ((P.check st.pstate promiser attrs).2.outcome lvl true).2
              ++ [Event.record (Rec.evaluateResp promiser attrs
                    (((P.check st.pstate promiser attrs).2.outcome lvl true).1))]
        ∧ (∀ r, (P.check st.pstate promiser attrs).2 = CheckResult.notKept r →
            evalResults (handleEvaluate P st lvl promiser attrs).2
              = [EvaluateOutcome.notKept])) := by
  constructor
  · simp [is_check_only, Option.isSome_iff_exists]
  · intro hco
    have key : handleEvaluate P st lvl promiser attrs =
        (⟨lvl, (P.check st.pstate promiser attrs).1⟩,
         Event.hook (HookCall.checkH promiser)
           :: ((P.check st.pstate promiser attrs).2.outcome lvl true).2
           ++ [Event.record (Rec.evaluateResp promiser attrs
                 (((P.check st.pstate promiser attrs).2.outcome lvl true).1))]) := by
      simp only [handleEvaluate, hco, Bool.not_true, Bool.false_and, Bool.false_eq_true,
        if_false]
    refine ⟨?_, ?_, ?_⟩
    · rw [key]
      have hc1 : hasApplyHook
          ((P.check st.pstate promiser attrs).2.outcome lvl true).2 = false :=
        hasApplyHook_of_logs fun _ he => mem_check_outcome he
      simp [hasApplyHook_cons, hasApplyHook_append, hasApplyHook_nil, isApplyHookEv, hc1]
    · rw [key]
    · intro r hr
      rw [key]
      have he1 : evalResults ((P.check st.pstate promiser attrs).2.outcome lvl true).2 = [] :=
        evalResults_of_logs fun _ he => mem_check_outcome he
      simp [evalResults_cons_hook, evalResults_append, evalResults_cons_evalResp,
        evalResults_nil, evalResults_emitLog, he1, hr, CheckResult.outcome]

/-- C4 witness: applying the theorem to a concrete evaluate dispatch
whose attribute map carries action_policy and whose check reports
NotKept — apply is not invoked and the outcome is NotKept. -/
theorem C4_action_policy_means_check_only_witness :
    hasApplyHook (handleEvaluate P4 ⟨LevelFilter.info, ()⟩ LevelFilter.info "/x"
        [("action_policy", Value.str "warn")]).2 = false
    ∧ evalResults (handleEvaluate P4 ⟨LevelFilter.info, ()⟩ LevelFilter.info "/x"
        [("action_policy", Value.str "warn")]).2 = [EvaluateOutcome.notKept] := by
  have h := (C4_action_policy_means_check_only P4 ⟨LevelFilter.info, ()⟩ LevelFilter.info
    "/x" [("action_policy", Value.str "warn")]).2 (by rfl)
  exact ⟨h.1, h.2.2 "drift" rfl⟩

/-- C5: if the check hook reports Kept, the apply hook is never called
and the response carries exactly the outcome Kept — with no hypothesis
on the check-only signal, so this holds whether or not the request is
check-only. -/
theorem C5_check_kept_is_final {σ : Type} (P : PromiseType σ) (st : DState σ)
    (lvl : LevelFilter) (promiser : String) (attrs : AttrMap)
    (h : (P.check st.pstate promiser attrs).2 = CheckResult.kept) :
    hasApplyHook (handleEvaluate P st lvl promiser attrs).2 = false
    ∧ evalResults (handleEvaluate P st lvl promiser attrs).2 = [EvaluateOutcome.kept]
    ∧ (handleEvaluate P st lvl promiser attrs).2 =
        [Event.hook (HookCall.checkH promiser),
         Event.record (Rec.evaluateResp promiser attrs EvaluateOutcome.kept)] := by
  have key : handleEvaluate P st lvl promiser attrs =
      (⟨lvl, (P.check st.pstate promiser attrs).1⟩,
       [Event.hook (HookCall.checkH promiser),
        Event.record (Rec.evaluateResp promiser attrs EvaluateOutcome.kept)]) := by
    simp [handleEvaluate, h, CheckResult.outcome]
    exact fun _ => rfl
  refine ⟨?_, ?_, ?_⟩ <;> rw [key] <;> rfl

/-- C5 witness: the theorem applied to a concrete dispatch whose check
reports Kept. -/
theorem C5_check_kept_is_final_witness :
    hasApplyHook (handleEvaluate P1 ⟨LevelFilter.info, ()⟩ LevelFilter.info "/w" []).2 = false
    ∧ evalResults (handleEvaluate P1 ⟨LevelFilter.info, ()⟩ LevelFilter.info "/w" []).2
      = [EvaluateOutcome.kept] :=
  ⟨(C5_check_kept_is_final P1 ⟨LevelFilter.info, ()⟩ LevelFilter.info "/w" [] rfl).1,
   (C5_check_kept_is_final P1 ⟨LevelFilter.info, ()⟩ LevelFilter.info "/w" [] rfl).2.1⟩

/-- First loop iteration, uninitialized: the init hook runs after the
read and the dbg dump and strictly before any dispatch; its failure or
error aborts the run with nothing dispatched; on success the remainder
of the run contains no further init hook. -/
lemma runLoop_first_step {σ : Type} (ign : Bool) (P : PromiseType σ) (req : Request)
    (rest : List Request) (st : DState σ) :
    (∃ tail, (runLoop ign P (req :: rest) st false).2 =
        Event.dbgDump :: Event.hook HookCall.initH :: tail
      ∧ countInitHooks tail = 0)
    ∧ (∀ e, (P.init st.pstate).2 = ProtocolResult.failure e →
        runLoop ign P (req :: rest) st false =
          (RunResult.err ("failed to initialize promise type: " ++ e),
           [Event.dbgDump, Event.hook HookCall.initH]))
    ∧ (∀ e, (P.init st.pstate).2 = ProtocolResult.error e →
        runLoop ign P (req :: rest) st false =
          (RunResult.err ("failed to initialize promise type with unexpected: " ++ e),
           [Event.dbgDump, Event.hook HookCall.initH])) := by
  simp only [runLoop, Bool.false_eq_true, if_false]
  cases hini : (P.init st.pstate).2 with
  | success =>
    refine ⟨?_, ?_, ?_⟩
    · cases hd : dispatch ign P { st with pstate := (P.init st.pstate).1 } req with
      | next st' evs =>
        refine ⟨evs ++ (runLoop ign P rest st' true).2, rfl, ?_⟩
        have h1 : countInitHooks evs = 0 := by
          have h := dispatch_all_dispatchEv ign P { st with pstate := (P.init st.pstate).1 } req
          rw [hd] at h
          exact countInit_of_all_dispatchEv h
        have h2 := countInit_of_all_dispatchEv (runLoop_true_all_dispatchEv ign P rest st')
        rw [countInitHooks, List.countP_append]
        rw [countInitHooks] at h1 h2
        omega
      | stop res evs =>
        refine ⟨evs, rfl, ?_⟩
        have h := dispatch_all_dispatchEv ign P { st with pstate := (P.init st.pstate).1 } req
        rw [hd] at h
        exact countInit_of_all_dispatchEv h
    · intro e he
      cases he
    · intro e he
      cases he
  | failure e0 =>
    refine ⟨⟨[], rfl, rfl⟩, ?_, ?_⟩
    · intro e he
      injection he with h
      rw [h]
    · intro e he
      cases he
  | error e0 =>
    refine ⟨⟨[], rfl, rfl⟩, ?_, ?_⟩
    · intro e he
      cases he
    · intro e he
      injection he with h
      rw [h]

/-- C7: on any run that reads at least one request record, the init hook
is called exactly once — right after the first record is read and
strictly before any dispatch (the trace begins with the header record,
the dbg dump, and the init hook, and the remainder contains no init
hook); when init reports Failure or Error the run aborts with that error
and nothing is ever dispatched (the trace ends at the init hook: no
dispatch hook, no log line, no response record follow it). -/
theorem C7_init_exactly_once {σ : Type} (ign : Bool) (P : PromiseType σ) (s0 : σ)
    (req : Request) (rest : List Request) :
    (∃ tail, (run_type ign P s0 (req :: rest)).2 =
        Event.record (Rec.headerRec P.name P.version) :: Event.dbgDump
          :: Event.hook HookCall.initH :: tail
      ∧ countInitHooks tail = 0)
    ∧ countInitHooks (run_type ign P s0 (req :: rest)).2 = 1
    ∧ (∀ e, (P.init s0).2 = ProtocolResult.failure e →
        run_type ign P s0 (req :: rest) =
          (RunResult.err ("failed to initialize promise type: " ++ e),
           [Event.record (Rec.headerRec P.name P.version), Event.dbgDump,
            Event.hook HookCall.initH]))
    ∧ (∀ e, (P.init s0).2 = ProtocolResult.error e →
        run_type ign P s0 (req :: rest) =
          (RunResult.err ("failed to initialize promise type with unexpected: " ++ e),
           [Event.record (Rec.headerRec P.name P.version), Event.dbgDump,
            Event.hook HookCall.initH])) := by
  have key := runLoop_first_step ign P req rest ⟨LevelFilter.critical, s0⟩
  have hrt : (run_type ign P s0 (req :: rest)).2 =
      Event.record (Rec.headerRec P.name P.version)
        :: (runLoop ign P (req :: rest) ⟨LevelFilter.critical, s0⟩ false).2 := rfl
  refine ⟨?_, ?_, ?_, ?_⟩
  · obtain ⟨tail, htr, hc⟩ := key.1
    refine ⟨tail, ?_, hc⟩
    rw [hrt, htr]
  · obtain ⟨tail, htr, hc⟩ := key.1
    rw [hrt, htr]
    rw [countInitHooks] at hc ⊢
    simp [List.countP_cons, isInitHook, hc]
  · intro e he
    have h2 := key.2.1 e he
    show ((runLoop ign P (req :: rest) ⟨LevelFilter.critical, s0⟩ false).1,
      Event.record (Rec.headerRec P.name P.version)
        :: (runLoop ign P (req :: rest) ⟨LevelFilter.critical, s0⟩ false).2) = _
    rw [h2]
  · intro e he
    have h2 := key.2.2 e he
    show ((runLoop ign P (req :: rest) ⟨LevelFilter.critical, s0⟩ false).1,
      Event.record (Rec.headerRec P.name P.version)
        :: (runLoop ign P (req :: rest) ⟨LevelFilter.critical, s0⟩ false).2) = _
    rw [h2]

/-- C7 witness: a concrete run whose init hook fails aborts with the
initialization error, the trace ending at the init hook. -/
theorem C7_init_exactly_once_witness :
    run_type false PInitFail () [Request.terminateReq] =
      (RunResult.err "failed to initialize promise type: boom",
       [Event.record (Rec.headerRec "test" "1.0"), Event.dbgDump,
        Event.hook HookCall.initH]) := by
  have h := (C7_init_exactly_once false PInitFail () Request.terminateReq []).2.2.1 "boom" rfl
  exact h

end Cf
